import Mathlib

/-!
Shallow embedding of `PBD::RaRingBuffer<T>` from
`src/libs/pbd/pbd/raringbuffer.h` (the two-segment, absolute-position
ring buffer), together with theorems checking the specification's
claims about it.

Modelling conventions:
* `guint` ring indices and counts are `Nat`; `int64_t` sample positions
  and offsets are `Int`.  No quantity in any verified scenario comes
  near 2^32 / 2^63, so machine wrap-around never changes a value here.
* `size` is a power of two (see `sizeFor`), so the source's
  `x & size_mask` (with `size_mask = size - 1`) is modelled as
  `x % size`; for `int64_t` the two's-complement and-mask with a
  power-of-two mask also equals the nonnegative remainder, which is
  what `Int.emod` computes.
* The spin-lock and the reset-gate mutex serialize every operation, and
  the model executes one whole operation at a time, so snapshots taken
  under the spin-lock simply read the current state.  `read`'s
  non-blocking try-acquire of the reset gate always succeeds in this
  single-threaded model.
* C `assert`s are modelled as hard failures: an operation whose assert
  would fire returns `none`.
-/

namespace RaRing

/-- One cache segment (struct `Segment`, lines 83-102 of the source).
`index` is the ring slot that corresponded to the segment's start
position when the segment was opened (`guint`), `write_start_pos` the
absolute position of the first sample of this incarnation (`int64_t`),
`write_start_offset` the number of samples written since then
(`int64_t`; `0` means the segment is inactive), and `write_reversed`
the reverse-playback flag (metadata only). -/
structure Segment where
  index : ℕ
  write_start_pos : ℤ
  write_start_offset : ℤ
  write_reversed : Bool
deriving DecidableEq, Repr

/-- Whole-buffer state, mirroring the data members of `RaRingBuffer<T>`:
storage, reservation, size (a power of two; `size_mask = size - 1` is
not stored, masking is modelled as `% size`), the two segment
descriptors and the two cursors. -/
structure State (T : Type) where
  buf : ℕ → T
  reservation : ℕ
  size : ℕ
  seg0 : Segment
  seg1 : Segment
  write_idx : ℕ
  read_idx : ℕ

variable {T : Type}

/-- The constructor's sizing loop, fuelled: starting from exponent `e`,
step to the first `e` with `2 ^ e ≥ sz`. -/
def findExp (sz : ℕ) : ℕ → ℕ → ℕ
  | 0, e => e
  | fuel + 1, e => if 2 ^ e < sz then findExp sz fuel (e + 1) else e

/-- Buffer size chosen by the constructor for `sz = requested + reservation`
(lines 111-113): `for (power_of_two = 1; 1U << power_of_two < sz; ++power_of_two);
size = 1 << power_of_two;`.  `sz` steps of fuel always suffice since
`2 ^ e` outgrows `e + 1`. -/
def sizeFor (sz : ℕ) : ℕ := 2 ^ findExp sz sz 1

/-- `reset(start)` (lines 128-140): segment 0 keeps its ring index but
gets the new start position, both segments are deactivated, and the
write cursor snaps to the current read cursor. -/
def reset (start : ℤ) (st : State T) : State T :=
  { st with
    seg0 := { st.seg0 with write_start_pos := start, write_start_offset := 0 }
    seg1 := { st.seg1 with write_start_offset := 0 }
    write_idx := st.read_idx }

/-- The constructor `RaRingBuffer(sz, res)` (lines 105-120):
`size = sizeFor (sz + res)`, read cursor `0`, then `reset 0`.
`buf0` is the freshly allocated storage (contents indeterminate) and
`g0`, `g1` carry the Segment fields the constructor never initializes:
both `index` fields, segment 1's start position, and the
`write_reversed` flags stay whatever they were. -/
def construct (c r : ℕ) (buf0 : ℕ → T) (g0 g1 : Segment) : State T :=
  reset 0
    { buf := buf0, reservation := r, size := sizeFor (c + r),
      seg0 := g0, seg1 := g1, write_idx := 0, read_idx := 0 }

/-- `segment_to_use` (lines 142-151).  For each segment the source
computes `w - index + ((w > index) ? 0 : size)`: the forward ring
distance from the segment's ring index to the write cursor, except that
a segment whose index equals the cursor gets distance `size` (the
`w > index` test fails on equality).  The segment with the strictly
smaller distance wins.  The source's `assert (d0 != d1)` holds whenever
the two indices are distinct and both below `size`, which is the case
at every call site below. -/
def segment_to_use (s0 s1 : Segment) (w size : ℕ) : ℕ :=
  let d0 : ℤ := (w : ℤ) - s0.index + (if s0.index < w then 0 else (size : ℤ))
  let d1 : ℤ := (w : ℤ) - s1.index + (if s1.index < w then 0 else (size : ℤ))
  if d0 < d1 then 0 else 1

/-- `next_write_pos()` (lines 153-174), including the source's final
`else` branch (which is unreachable: the three branches before it
already cover every combination of active segments). -/
def next_write_pos (st : State T) : ℤ :=
  if st.seg0.write_start_offset = 0 ∧ st.seg1.write_start_offset = 0 then
    st.seg0.write_start_pos
  else if st.seg0.write_start_offset ≠ 0 then
    st.seg0.write_start_pos + st.seg0.write_start_offset
  else if st.seg1.write_start_offset ≠ 0 then
    st.seg1.write_start_pos + st.seg1.write_start_offset
  else
    let sg := segment_to_use st.seg0 st.seg1 st.write_idx st.size
    let sd := if sg = 0 then st.seg0 else st.seg1
    sd.write_start_pos + sd.write_start_offset

/-- `lrs` of a segment: one past the last absolute position ever written
into it (`write_start_pos + write_start_offset`). -/
def seg_lrs (sg : Segment) : ℤ := sg.write_start_pos + sg.write_start_offset

/-- `frs` of a segment: first retained absolute position,
`lrs - min (write_start_offset) (size - 1)` (lines 212, 235, 447, 461). -/
def seg_frs (sg : Segment) (size : ℕ) : ℤ :=
  seg_lrs sg - min sg.write_start_offset ((size : ℤ) - 1)

/-- The range test applied to one segment by `can_read` and `read`
(lines 210-214, 233-236, 445-448, 459-462): the segment is active and
`[start, start + cnt)` lies inside `[frs, lrs)`. -/
def covers (sg : Segment) (size : ℕ) (start : ℤ) (cnt : ℕ) : Bool :=
  decide (0 < sg.write_start_offset ∧
    seg_frs sg size ≤ start ∧ start + (cnt : ℤ) ≤ seg_lrs sg)

/-- `can_read(start, cnt)` (lines 200-246): true iff either segment
covers the requested range (the diagnostic printf on failure is
ignored). -/
def can_read (st : State T) (start : ℤ) (cnt : ℕ) : Bool :=
  if covers st.seg0 st.size start cnt then true
  else if covers st.seg1 st.size start cnt then true
  else false

/-- `write_space()` (lines 269-296): ring distance from the write
cursor forward to the read cursor, with equal cursors counting as
`size` (empty buffer), then one slot plus the reservation subtracted,
clamped at zero.  The commented-out `assert (rv > reservation)` of the
source is, deliberately, not modelled as a failure. -/
def write_space (st : State T) : ℕ :=
  let w := st.write_idx
  let r := st.read_idx
  let rv : ℕ :=
    if r < w then (r + st.size - w) % st.size
    else if w < r then r - w
    else st.size
  if st.reservation < rv then rv - 1 - st.reservation else 0

/-- `read_space()` (lines 298-309). -/
def read_space (st : State T) : ℕ :=
  if st.read_idx < st.write_idx then st.write_idx - st.read_idx
  else (st.write_idx + st.size - st.read_idx) % st.size

/-- The physical read slot computed by `read` for a matching segment
(lines 449-454 / 463-468): `p = (index + write_start_offset) & size_mask`,
then back up by `lrs - start` slots, wrapping. -/
def readPos (sg : Segment) (size : ℕ) (start : ℤ) : ℕ :=
  let lrs := seg_lrs sg
  let p : ℤ := ((sg.index : ℤ) + sg.write_start_offset) % (size : ℤ)
  if lrs - start < p then (p - (lrs - start)).toNat
  else (((size : ℤ) + p - (lrs - start)) % (size : ℤ)).toNat

/-- Lines 389-420 of `write`: space check, clamp, two-span copy,
publish.  `s0`/`s1` are the (possibly locally modified) snapshot
descriptors; only `s[segment]` is published back, the other slot of the
state keeps its original value, exactly as in the source. -/
def writeCopy (src : ℕ → T) (cnt : ℕ) (st : State T) (segment : ℕ)
    (s0 s1 : Segment) : Option (ℕ × State T) :=
  let free_cnt := write_space st
  if free_cnt = 0 then some (0, st)
  else
    let to_write := min cnt free_cnt
    let priv0 := st.write_idx
    let cnt2 := priv0 + to_write
    let n1 := if st.size < cnt2 then st.size - priv0 else to_write
    let n2 := if st.size < cnt2 then cnt2 % st.size else 0
    let buf2 : ℕ → T := fun k =>
      if k < n2 then src (n1 + k)
      else if priv0 ≤ k ∧ k < priv0 + n1 then src (k - priv0)
      else st.buf k
    let priv1 := if n2 ≠ 0 then n2 else (priv0 + n1) % st.size
    let sd := if segment = 0 then s0 else s1
    let sd2 := { sd with write_start_offset := sd.write_start_offset + to_write }
    some (to_write,
      { st with buf := buf2,
                seg0 := if segment = 0 then sd2 else st.seg0,
                seg1 := if segment = 0 then st.seg1 else sd2,
                write_idx := priv1 })

/-- Lines 378-420 of `write`: after a segment has been chosen, either
the requested start continues it, or the other slot is opened at the
new start (the "START NEW segment" path, whose
`assert (s[segment].write_start_offset == 0)` is modelled as `none`). -/
def writeCont (src : ℕ → T) (start : ℤ) (cnt : ℕ) (st : State T)
    (segment : ℕ) (s0 s1 : Segment) : Option (ℕ × State T) :=
  let sd := if segment = 0 then s0 else s1
  if start = sd.write_start_pos + sd.write_start_offset then
    writeCopy src cnt st segment s0 s1
  else
    let seg2 := 1 - segment
    let so := if seg2 = 0 then s0 else s1
    if so.write_start_offset ≠ 0 then none
    else
      let so2 : Segment :=
        { so with index := st.write_idx, write_start_pos := start,
                  write_start_offset := 0 }
      if seg2 = 0 then writeCopy src cnt st 0 so2 s1
      else writeCopy src cnt st 1 s0 so2

/-- `write(src, start, cnt)` (lines 338-421).  Segment choice, lines
358-376: both inactive opens segment 0 at the cursor; otherwise the
first `else if` takes segment 0 whenever it is active — also when both
are active, so the final `else` (both in use: consult `segment_to_use`
and refuse a non-continuing start) is unreachable; it is still
transcribed here. -/
def write (src : ℕ → T) (start : ℤ) (cnt : ℕ) (st : State T) :
    Option (ℕ × State T) :=
  if st.seg0.write_start_offset = 0 ∧ st.seg1.write_start_offset = 0 then
    writeCont src start cnt st 0
      { st.seg0 with index := st.write_idx, write_start_pos := start } st.seg1
  else if st.seg0.write_start_offset ≠ 0 then
    writeCont src start cnt st 0 st.seg0 st.seg1
  else if st.seg1.write_start_offset ≠ 0 then
    writeCont src start cnt st 1 st.seg0 st.seg1
  else
    let sg := segment_to_use st.seg0 st.seg1 st.write_idx st.size
    let sd := if sg = 0 then st.seg0 else st.seg1
    if start ≠ sd.write_start_pos + sd.write_start_offset then some (0, st)
    else writeCont src start cnt st sg st.seg0 st.seg1

/-- `read(dest, start, cnt, commit)` (lines 423-534).  Result:
`(contents copied into dest, return value, new state)`; `none` models a
fired assert in the commit-time shrink of the stale segment.  The
reset-gate try-acquire always succeeds in the single-threaded model.
`priv_read_idx` is only computed for a matching segment (the source
leaves it uninitialized and unused on a miss); when both segments match,
segment 1's value wins, as in the source (its block runs second). -/
def read (start : ℤ) (cnt : ℕ) (commit : Bool) (st : State T) :
    Option (List T × ℕ × State T) :=
  let m0 := covers st.seg0 st.size start cnt
  let m1 := covers st.seg1 st.size start cnt
  let segment : ℕ := (if m0 then 1 else 0) + (if m1 then 2 else 0)
  if segment ≠ 1 ∧ segment ≠ 2 then
    some ([], 0, if commit then { st with read_idx := st.write_idx } else st)
  else
    let priv0 := if m1 then readPos st.seg1 st.size start
                 else readPos st.seg0 st.size start
    let cnt2 := priv0 + cnt
    let n1 := if st.size < cnt2 then st.size - priv0 else cnt
    let n2 := if st.size < cnt2 then cnt2 % st.size else 0
    let out := ((List.range n1).map fun i => st.buf (priv0 + i)) ++
      (List.range n2).map st.buf
    let priv1 := if n2 ≠ 0 then n2 else (priv0 + n1) % st.size
    if commit then
      if st.seg0.write_start_offset ≠ 0 ∧ st.seg1.write_start_offset ≠ 0 then
        let wseg := 1 - segment_to_use st.seg0 st.seg1 st.write_idx st.size
        if segment = 2 ∧ wseg = 1 then
          let e := start + (cnt : ℤ)
          let delta := e - st.seg1.write_start_pos
          if delta < 0 ∨ st.seg1.write_start_offset < delta then none
          else some (out, cnt,
            { st with
              seg1 := ⟨priv1, e, st.seg1.write_start_offset - delta,
                       st.seg1.write_reversed⟩,
              read_idx := priv1 })
        else if segment = 1 ∧ wseg = 0 then
          let e := start + (cnt : ℤ)
          let delta := e - st.seg0.write_start_pos
          if delta < 0 ∨ st.seg0.write_start_offset < delta then none
          else some (out, cnt,
            { st with
              seg0 := ⟨priv1, e, st.seg0.write_start_offset - delta,
                       st.seg0.write_reversed⟩,
              read_idx := priv1 })
        else some (out, cnt, { st with read_idx := priv1 })
      else some (out, cnt, { st with read_idx := priv1 })
    else some (out, cnt, st)

/-- A batch of `write` calls: source data, absolute start, count. -/
def WriteReq (T : Type) : Type := (ℕ → T) × ℤ × ℕ

/-- Run a sequence of `write` calls; `none` if one of them aborts. -/
def runWrites : List (WriteReq T) → State T → Option (State T)
  | [], st => some st
  | req :: rest, st =>
    match write req.1 req.2.1 req.2.2 st with
    | none => none
    | some (_, st2) => runWrites rest st2

/-- Forward ring distance from slot `a` to slot `b`. -/
def ringDistFwd (a b size : ℕ) : ℕ := (b + size - a) % size

/-- Cursor well-formedness plus the reservation bound on the ring
distance from the read cursor forward to the write cursor. -/
abbrev Inv (st : State T) : Prop :=
  st.write_idx < st.size ∧ st.read_idx < st.size ∧
    ringDistFwd st.read_idx st.write_idx st.size ≤
      st.size - 1 - st.reservation

/-! ## Concrete states and traces used by counterexamples and witnesses -/

/-- A freshly constructed and reset buffer: requested capacity 14,
reservation 2, hence `size = 16`; all indeterminate fields zeroed. -/
def cbuf : State ℕ :=
  reset 0 (construct 14 2 (fun _ => 0) ⟨0, 0, 0, false⟩ ⟨0, 0, 0, false⟩)

/-- An API trace from the fresh buffer `cbuf`:
write 13 samples at 0, read them back with commit, write 13 more at 13
(wrapping), then re-read one old sample at position 11 with commit
(a rewind inside the reservation window, which moves the read cursor
backwards), and finally attempt one more write at 26.  Every call is a
legal use of the buffer. -/
def ctr : Option (State ℕ) :=
  (write (fun i => i) 0 13 cbuf).bind fun p =>
  (read 0 13 true p.2).bind fun q =>
  (write (fun i => i) 13 13 q.2.2).bind fun p2 =>
  (read 11 1 true p2.2).bind fun q2 =>
  (write (fun i => i) 26 1 q2.2.2).map fun p3 => p3.2

/-- A two-write trace from the fresh buffer `cbuf`: 10 samples at
position 0, then a non-contiguous write of 5 samples at position 3,
which opens segment 1 inside segment 0's absolute range. -/
def tr3 : Option (State ℕ) :=
  (write (fun i => i) 0 10 cbuf).bind fun p =>
    (write (fun i => 100 + i) 3 5 p.2).map Prod.snd

/-- A both-segments-active state (reachable by a trace like `tr3`
followed by reader progress): segment 0 holds `[0, 10)` anchored at
slot 0, segment 1 holds `[3, 6)` anchored at slot 10, write cursor 13,
read cursor 4, so `write_space` is positive. -/
def bothSt2 : State ℕ :=
  { buf := fun _ => 0, reservation := 2, size := 16,
    seg0 := ⟨0, 0, 10, false⟩, seg1 := ⟨10, 3, 3, false⟩,
    write_idx := 13, read_idx := 4 }

/-- The state reached by `tr3` (read cursor still 0): both segments
active, write cursor 13. -/
def bothSt : State ℕ :=
  { buf := fun _ => 0, reservation := 2, size := 16,
    seg0 := ⟨0, 0, 10, false⟩, seg1 := ⟨10, 3, 3, false⟩,
    write_idx := 13, read_idx := 0 }

/-- A state with exactly segment 0 active, holding `[0, 5)` at slot 0,
write cursor 5, read cursor 0. -/
def oneSeg : State ℕ :=
  { buf := fun _ => 0, reservation := 2, size := 16,
    seg0 := ⟨0, 0, 5, false⟩, seg1 := ⟨0, 0, 0, false⟩,
    write_idx := 5, read_idx := 0 }

/-! ## Claim theorems -/

/-- Claim C2, counterexample.  The claim states that after any sequence
of write calls from any reachable state, the forward ring distance from
the read cursor to the write cursor never exceeds `size - 1 - reservation`.
The trace `ctr` — fresh buffer, legal writes and committing reads, ending
in a write call — reaches distance 14 while `size - 1 - reservation = 13`:
the committing re-read at position 11 moves the read cursor backwards
(the rewind that the source's commented-out `assert (rv > reservation)`
worries about), and the final write cannot restore the bound. -/
theorem reservation_distance_cx :
    (ctr.map fun st =>
      (ringDistFwd st.read_idx st.write_idx st.size,
       st.size - 1 - st.reservation)) = some (14, 13) := by decide

/-- Claim C3, counterexample.  The claim states that no sequence of
writes from a reset buffer produces two active segments whose derived
absolute ranges overlap.  After the two writes of `tr3` both segments
are active and absolute position 3 lies inside both derived ranges
(segment 0 holds `[0, 10)`, segment 1 holds `[3, 6)`): `write` never
compares a new segment's start position against the other segment's
range. -/
theorem segment_overlap_cx :
    (tr3.map fun st =>
      (decide (0 < st.seg0.write_start_offset) &&
       decide (0 < st.seg1.write_start_offset) &&
       decide (seg_frs st.seg0 st.size ≤ 3) &&
       decide ((3 : ℤ) < seg_lrs st.seg0) &&
       decide (seg_frs st.seg1 st.size ≤ 3) &&
       decide ((3 : ℤ) < seg_lrs st.seg1))) = some true := by decide

/-- Claim C4 (code bug).  The claim: when both segments are active and
`write` is called with a start that does not continue the segment
selected by `segment_to_use`, it returns 0 and changes nothing.  That is
what the source's lines 367-376 intend, but they are dead code: with
both segments active the `else if (s[0].write_start_offset != 0)` at
line 363 already picks segment 0.  On `bothSt2` (both active,
`segment_to_use` picks segment 1, whose continuation is position 6):
a write at position 10 — continuing segment 0, not segment 1 — copies
2 samples and returns 2 instead of the claimed 0; a write at position
100 — continuing neither — reaches the "START NEW segment" path and
trips `assert (s[segment].write_start_offset == 0)` (modelled as
`none`) instead of returning 0. -/
theorem both_active_write_divergence :
    bothSt2.seg0.write_start_offset ≠ 0 ∧
    bothSt2.seg1.write_start_offset ≠ 0 ∧
    segment_to_use bothSt2.seg0 bothSt2.seg1 bothSt2.write_idx bothSt2.size = 1 ∧
    seg_lrs bothSt2.seg1 = 6 ∧
    (write (fun _ => (0 : ℕ)) 10 2 bothSt2).map Prod.fst = some 2 ∧
    (write (fun _ => (0 : ℕ)) 100 1 bothSt2).isNone = true := by decide

/-- Claim C5, counterexample.  The claim's formula — available space is
`((read_cursor - write_cursor) mod size) - reservation - 1` clamped at
zero, "including the case write_cursor == read_cursor, where the ring
distance is 0" — gives 0 on the fresh buffer `cbuf` (cursors equal) and
predicts that writes are refused there.  The source instead treats
equal cursors as distance `size` (empty buffer): `write_space cbuf = 13`
and a write at this state returns 13 samples, not 0. -/
theorem write_space_empty_cursor_cx :
    cbuf.write_idx = cbuf.read_idx ∧
    (cbuf.read_idx + cbuf.size - cbuf.write_idx) % cbuf.size -
      cbuf.reservation - 1 = 0 ∧
    write_space cbuf = 13 ∧
    (write (fun i => i) 0 13 cbuf).map Prod.fst = some 13 := by decide

/-- Claim C6, counterexample.  The claim: with both segments active,
`next_write_pos()` returns `start_position + written_length` of the
segment selected by `segment_to_use`.  On `bothSt` that segment is
segment 1 with value 6, but `next_write_pos` returns segment 0's value
10: the `else if (s[0].write_start_offset != 0)` at line 166 already
fires when both segments are active, so the `segment_to_use` branch at
lines 170-173 is dead code. -/
theorem next_write_pos_both_active_cx :
    bothSt.seg0.write_start_offset ≠ 0 ∧
    bothSt.seg1.write_start_offset ≠ 0 ∧
    segment_to_use bothSt.seg0 bothSt.seg1 bothSt.write_idx bothSt.size = 1 ∧
    seg_lrs bothSt.seg1 = 6 ∧
    next_write_pos bothSt = 10 ∧ (10 : ℤ) ≠ 6 := by decide

/-- Claim C7, counterexample.  The claim: `segment_to_use` returns the
segment whose forward ring distance `(w - ring_index + size) mod size`
is smaller, "including the boundary case w == ring_index, where that
distance is 0".  With `w = 5`, indices 5 and 3 and `size = 16`, segment
0's mod-size distance is 0 and segment 1's is 2, so the claim predicts
0; the source computes `w - index + ((w > index) ? 0 : size)`, which is
`size`, not 0, at `w == index`, and returns 1. -/
theorem segment_to_use_boundary_cx :
    (5 + 16 - 5) % 16 = 0 ∧ (5 + 16 - 3) % 16 = 2 ∧
    segment_to_use ⟨5, 0, 0, false⟩ ⟨3, 0, 0, false⟩ 5 16 = 1 := by decide

/-- Claim C8 (confirmed): after `reset p` — from any state at all, so in
particular from every reachable one — both segments are inactive,
segment 0's start position is `p`, the write cursor equals the read
cursor, `can_read` is false for every range, and `next_write_pos`
returns `p`. -/
theorem reset_discards_cache (T : Type) (st : State T) (p : ℤ) :
    (reset p st).seg0.write_start_offset = 0 ∧
    (reset p st).seg1.write_start_offset = 0 ∧
    (reset p st).seg0.write_start_pos = p ∧
    (reset p st).write_idx = (reset p st).read_idx ∧
    (∀ start cnt, can_read (reset p st) start cnt = false) ∧
    next_write_pos (reset p st) = p := by
  refine ⟨rfl, rfl, rfl, rfl, ?_, ?_⟩
  · intro start cnt
    simp [can_read, covers, reset]
  · simp [next_write_pos, reset]

/-- Shared helper: whenever the two segment range tests agree — the
range is covered by neither segment, or by both — `read` copies
nothing, returns 0, and (only when committing) snaps the read cursor to
the write cursor sampled in the same snapshot. -/
theorem read_not_exactly_one (st : State T) (start : ℤ) (cnt : ℕ) (commit : Bool)
    (h : covers st.seg0 st.size start cnt = covers st.seg1 st.size start cnt) :
    read start cnt commit st =
      some ([], 0, if commit then { st with read_idx := st.write_idx } else st) := by
  unfold read
  rw [← h]
  cases hb : covers st.seg0 st.size start cnt <;> simp

/-- Claim C9 (confirmed): when the requested range is not covered by
exactly one active segment, `read` copies nothing into `dest`, returns
0, and, when `commit` is set, snaps the read cursor to the write-cursor
value sampled in the same snapshot; with `commit = false` the state is
unchanged. -/
theorem read_miss_behavior (T : Type) (st : State T) (start : ℤ) (cnt : ℕ)
    (commit : Bool)
    (h : ¬(covers st.seg0 st.size start cnt = true ↔
           ¬covers st.seg1 st.size start cnt = true)) :
    read start cnt commit st =
      some ([], 0, if commit then { st with read_idx := st.write_idx } else st) := by
  apply read_not_exactly_one
  cases hb0 : covers st.seg0 st.size start cnt <;>
    cases hb1 : covers st.seg1 st.size start cnt <;>
      simp [hb0, hb1] at h ⊢

/-- Claim C9, witness: on the fresh buffer `cbuf` neither segment
covers `[5, 8)`, and a committing read of that range returns no data
and snaps the read cursor to the write cursor. -/
theorem read_miss_behavior_witness :
    read 5 3 true cbuf =
      some ([], 0, { cbuf with read_idx := cbuf.write_idx }) := by
  have h := read_miss_behavior ℕ cbuf 5 3 true (by decide)
  simpa using h

/-- Claim C10 (confirmed): when the requested range lies inside the
derived valid ranges of both active segments simultaneously, `read`
services it from neither: it copies nothing, returns 0, and, when
committing, snaps the read cursor to the sampled write cursor, exactly
as for a cache miss (lines 473-479 fire because the match bitmask is 3,
which is neither 1 nor 2). -/
theorem read_double_cover (T : Type) (st : State T) (start : ℤ) (cnt : ℕ)
    (commit : Bool)
    (h0 : covers st.seg0 st.size start cnt = true)
    (h1 : covers st.seg1 st.size start cnt = true) :
    read start cnt commit st =
      some ([], 0, if commit then { st with read_idx := st.write_idx } else st) := by
  apply read_not_exactly_one
  rw [h0, h1]

/-- Claim C10, witness: on `bothSt` the range `[3, 6)` lies inside both
segment 0's range `[0, 10)` and segment 1's range `[3, 6)`, and a
committing read of it returns no data and snaps the read cursor to the
write cursor (13). -/
theorem read_double_cover_witness :
    read 3 3 true bothSt =
      some ([], 0, { bothSt with read_idx := bothSt.write_idx }) := by
  have h := read_double_cover ℕ bothSt 3 3 true (by decide) (by decide)
  simpa using h

/-- Claim C6, amended: `next_write_pos()` returns segment 0's
`start_position` if both segments are inactive; segment 0's
`start_position + written_length` whenever segment 0 is active — in
particular also when both segments are active, where the
`segment_to_use` branch of the source is unreachable; and segment 1's
`start_position + written_length` when only segment 1 is active. -/
theorem next_write_pos_cases (T : Type) (st : State T) :
    (st.seg0.write_start_offset = 0 ∧ st.seg1.write_start_offset = 0 →
      next_write_pos st = st.seg0.write_start_pos) ∧
    (st.seg0.write_start_offset ≠ 0 →
      next_write_pos st = st.seg0.write_start_pos + st.seg0.write_start_offset) ∧
    (st.seg0.write_start_offset = 0 → st.seg1.write_start_offset ≠ 0 →
      next_write_pos st = st.seg1.write_start_pos + st.seg1.write_start_offset) := by
  refine ⟨?_, ?_, ?_⟩
  · intro h
    simp [next_write_pos, h.1, h.2]
  · intro h
    simp only [next_write_pos]
    rw [if_neg (by simp [h]), if_pos h]
  · intro h0 h1
    simp only [next_write_pos]
    rw [if_neg (by simp [h1]), if_neg (by simp [h0]), if_pos h1]

/-- Claim C6, witness: on `bothSt` (both segments active) segment 0 is
active, so `next_write_pos` returns segment 0's value `0 + 10`. -/
theorem next_write_pos_cases_witness :
    next_write_pos bothSt =
      bothSt.seg0.write_start_pos + bothSt.seg0.write_start_offset :=
  (next_write_pos_cases ℕ bothSt).2.1 (by decide)

/-- The distance the source computes in `segment_to_use` for a ring
index `i ≠ w` equals the forward mod-size ring distance. -/
theorem stu_dist_eq (w size i : ℕ) (hw : w < size) (hi : i < size) (hiw : i ≠ w) :
    (w : ℤ) - i + (if i < w then 0 else (size : ℤ)) =
      ((w + size - i) % size : ℕ) := by
  by_cases hlt : i < w
  · have hm : (w + size - i) % size = w - i := by
      have h2 : w + size - i = (w - i) + size := by omega
      rw [h2, Nat.add_mod_right, Nat.mod_eq_of_lt (by omega)]
    rw [if_pos hlt, hm]
    omega
  · have hwi : w < i := by omega
    have hm : (w + size - i) % size = w + size - i :=
      Nat.mod_eq_of_lt (by omega)
    rw [if_neg hlt, hm]
    omega

/-- Claim C7, amended: for segments with distinct in-range ring indices
and an in-range write cursor, `segment_to_use` returns the segment
whose forward ring distance `(w - ring_index + size) mod size` to the
write cursor is smaller whenever `w` differs from both ring indices; at
the boundary `w == ring_index` the source computes that segment's
distance as `size` — the farthest possible — not 0, so the *other*
segment is returned. -/
theorem segment_to_use_amended (s0 s1 : Segment) (w size : ℕ)
    (h0 : s0.index < size) (h1 : s1.index < size) (hw : w < size)
    (hne : s0.index ≠ s1.index) :
    (s0.index ≠ w → s1.index ≠ w →
      (segment_to_use s0 s1 w size = 0 ↔
        (w + size - s0.index) % size < (w + size - s1.index) % size)) ∧
    (s0.index = w → segment_to_use s0 s1 w size = 1) ∧
    (s1.index = w → segment_to_use s0 s1 w size = 0) := by
  have hsz : 0 < size := Nat.lt_of_le_of_lt (Nat.zero_le _) hw
  have hunfold : segment_to_use s0 s1 w size =
      if ((w : ℤ) - s0.index + (if s0.index < w then 0 else (size : ℤ))) <
         ((w : ℤ) - s1.index + (if s1.index < w then 0 else (size : ℤ)))
      then 0 else 1 := rfl
  refine ⟨?_, ?_, ?_⟩
  · intro hw0 hw1
    rw [hunfold, stu_dist_eq w size s0.index hw h0 hw0,
        stu_dist_eq w size s1.index hw h1 hw1]
    by_cases hab :
        (w + size - s0.index) % size < (w + size - s1.index) % size
    · rw [if_pos (by exact_mod_cast hab)]
      simp [hab]
    · rw [if_neg (by exact_mod_cast hab)]
      simp [hab]
  · intro he
    rw [hunfold, stu_dist_eq w size s1.index hw h1 (by omega)]
    have hlt : (w + size - s1.index) % size < size := Nat.mod_lt _ hsz
    have hno : ¬((w : ℤ) - s0.index + (if s0.index < w then 0 else (size : ℤ)) <
        (((w + size - s1.index) % size : ℕ) : ℤ)) := by
      rw [he, if_neg (lt_irrefl w)]
      omega
    rw [if_neg hno]
  · intro he
    rw [hunfold, stu_dist_eq w size s0.index hw h0 (by omega)]
    have hlt : (w + size - s0.index) % size < size := Nat.mod_lt _ hsz
    have hyes : ((((w + size - s0.index) % size : ℕ)) : ℤ) <
        (w : ℤ) - s1.index + (if s1.index < w then 0 else (size : ℤ)) := by
      rw [he, if_neg (lt_irrefl w)]
      omega
    rw [if_pos hyes]

/-- Claim C7, witness: with in-range distinct indices 0 and 3 and write
cursor 5 in a size-16 ring, the result is 0 precisely because segment
0's mod-size distance (5) is smaller than segment 1's (2) — here it is
not, so `segment_to_use` returns 1. -/
theorem segment_to_use_amended_witness :
    segment_to_use ⟨0, 0, 0, false⟩ ⟨3, 0, 0, false⟩ 5 16 = 0 ↔
      (5 + 16 - 0) % 16 < (5 + 16 - 3) % 16 :=
  (segment_to_use_amended ⟨0, 0, 0, false⟩ ⟨3, 0, 0, false⟩ 5 16
    (by decide) (by decide) (by decide) (by decide)).1 (by decide) (by decide)

/-- Claim C5, amended: for in-range cursors, the available space used by
`write` equals the forward ring distance from the write cursor to the
read cursor, minus the reservation, minus one, clamped below at zero —
where the distance is `(read - write) mod size` for distinct cursors
but `size` (empty buffer, the maximal distance) when the cursors are
equal, not 0 as the claim stated.  A write that continues the active
segment 0 with a requested count of at least 1 returns 0 exactly when
this quantity is zero. -/
theorem write_space_formula_amended (T : Type) (st : State T)
    (hw : st.write_idx < st.size) (hr : st.read_idx < st.size) :
    (st.write_idx ≠ st.read_idx →
      write_space st =
        (st.read_idx + st.size - st.write_idx) % st.size - st.reservation - 1) ∧
    (st.write_idx = st.read_idx →
      write_space st = st.size - st.reservation - 1) ∧
    (∀ src : ℕ → T, ∀ start : ℤ, ∀ cnt : ℕ,
      st.seg0.write_start_offset ≠ 0 →
      start = st.seg0.write_start_pos + st.seg0.write_start_offset →
      1 ≤ cnt →
      ((write src start cnt st).map Prod.fst = some 0 ↔ write_space st = 0)) := by
  refine ⟨?_, ?_, ?_⟩
  · intro hne
    unfold write_space
    rcases Nat.lt_trichotomy st.read_idx st.write_idx with hlt | heq | hgt
    · simp only [if_pos hlt]
      split <;> omega
    · omega
    · have h2 : ¬(st.read_idx < st.write_idx) := by omega
      simp only [if_neg h2, if_pos hgt]
      have hm : (st.read_idx + st.size - st.write_idx) % st.size =
          st.read_idx - st.write_idx := by
        have h3 : st.read_idx + st.size - st.write_idx =
            (st.read_idx - st.write_idx) + st.size := by omega
        rw [h3, Nat.add_mod_right, Nat.mod_eq_of_lt (by omega)]
      rw [hm]
      split <;> omega
  · intro heq
    unfold write_space
    rw [heq]
    simp only [lt_self_iff_false, if_false]
    split <;> omega
  · intro src start cnt h hstart hcnt
    subst hstart
    have hne0 : ¬(st.seg0.write_start_offset = 0 ∧
        st.seg1.write_start_offset = 0) := fun hc => h hc.1
    by_cases hws : write_space st = 0
    · simp [write, writeCont, writeCopy, hne0, h, hws]
    · have hmin : min cnt (write_space st) ≠ 0 := by
        rw [Nat.min_def]
        split <;> omega
      simp [write, writeCont, writeCopy, hne0, h, hws, hmin]

/-- Claim C5, witness: on the one-active-segment state `oneSeg`
(write cursor 5, read cursor 0, size 16, reservation 2) the cursors
differ and `write_space` matches the amended formula,
`(0 + 16 - 5) % 16 - 2 - 1 = 8`. -/
theorem write_space_formula_witness :
    write_space oneSeg =
      (oneSeg.read_idx + oneSeg.size - oneSeg.write_idx) % oneSeg.size -
        oneSeg.reservation - 1 :=
  (write_space_formula_amended ℕ oneSeg (by decide) (by decide)).1 (by decide)

/-- Claim C3, amended: writes alone do not keep the two active
segments' absolute ranges disjoint in general (see the counterexample
`segment_overlap_cx`); what does hold is that when a write opens the
second segment by jumping *forward* — to a start position at or beyond
the active segment's `last_range_end` — then immediately after that
write either segment 1 is still inactive or segment 0's entire derived
range lies below segment 1's (`lrs₀ ≤ frs₁`), so the two ranges are
disjoint. -/
theorem segment_disjoint_amended (T : Type) (src : ℕ → T) (start : ℤ)
    (cnt : ℕ) (st : State T)
    (h0 : 0 < st.seg0.write_start_offset)
    (h1 : st.seg1.write_start_offset = 0)
    (hjump : seg_lrs st.seg0 ≤ start) :
    (write src start cnt st).map (fun p =>
      decide (p.2.seg1.write_start_offset ≤ 0 ∨
        seg_lrs p.2.seg0 ≤ seg_frs p.2.seg1 p.2.size)) = some true := by
  have hne : st.seg0.write_start_offset ≠ 0 := ne_of_gt h0
  have hA : ¬(st.seg0.write_start_offset = 0 ∧ st.seg1.write_start_offset = 0) :=
    fun hc => hne hc.1
  by_cases hc : start = st.seg0.write_start_pos + st.seg0.write_start_offset
  · by_cases hws : write_space st = 0
    · simp [write, writeCont, writeCopy, hA, hne, hc, hws, h1]
    · simp [write, writeCont, writeCopy, hA, hne, hc, hws, h1]
  · by_cases hws : write_space st = 0
    · simp [write, writeCont, writeCopy, hA, hne, hc, hws, h1]
    · simp [write, writeCont, writeCopy, hA, hne, hc, hws, h1, seg_lrs, seg_frs]
      right
      have hm : ((cnt : ℤ) ⊓ (write_space st : ℤ)) ⊓ ((st.size : ℤ) - 1) ≤
          (cnt : ℤ) ⊓ (write_space st : ℤ) := min_le_left _ _
      have hj : st.seg0.write_start_pos + st.seg0.write_start_offset ≤ start :=
        hjump
      linarith

/-- Claim C3, witness: on `oneSeg` (segment 0 active with range
`[0, 5)`, segment 1 inactive) a forward-jump write of 3 samples at
position 8 yields disjoint ranges. -/
theorem segment_disjoint_amended_witness :
    (write (fun _ => (0 : ℕ)) 8 3 oneSeg).map (fun p =>
      decide (p.2.seg1.write_start_offset ≤ 0 ∨
        seg_lrs p.2.seg0 ≤ seg_frs p.2.seg1 p.2.size)) = some true :=
  segment_disjoint_amended ℕ (fun _ => 0) 8 3 oneSeg (by decide) (by decide)
    (by decide)

/-- Helper for claim C2: everything `writeCopy` can return.  Either it
refuses for lack of space and changes nothing, or it copies exactly
`min cnt (write_space st)` samples and advances the write cursor by
that amount modulo `size`, leaving the read cursor, size and
reservation untouched. -/
theorem writeCopy_track (src : ℕ → T) (cnt : ℕ) (st : State T) (seg : ℕ)
    (s0 s1 : Segment) (n : ℕ) (st2 : State T)
    (hw : st.write_idx < st.size)
    (h : writeCopy src cnt st seg s0 s1 = some (n, st2)) :
    (n = 0 ∧ st2 = st) ∨
    (write_space st ≠ 0 ∧ n = min cnt (write_space st) ∧
      st2.write_idx = (st.write_idx + n) % st.size ∧
      st2.read_idx = st.read_idx ∧ st2.size = st.size ∧
      st2.reservation = st.reservation) := by
  unfold writeCopy at h
  by_cases hfree : write_space st = 0
  · rw [if_pos hfree] at h
    injection h with h2
    injection h2 with h3 h4
    exact Or.inl ⟨h3.symm, h4.symm⟩
  · rw [if_neg hfree] at h
    injection h with h2
    injection h2 with h3 h4
    right
    subst h3
    rw [← h4]
    refine ⟨hfree, rfl, ?_, rfl, rfl, rfl⟩
    by_cases hwrap : st.size < st.write_idx + min cnt (write_space st)
    · simp only [if_pos hwrap]
      by_cases hz : (st.write_idx + min cnt (write_space st)) % st.size = 0
      · rw [if_neg (by simpa using hz)]
        have h5 : st.write_idx + (st.size - st.write_idx) = st.size := by omega
        rw [h5, Nat.mod_self, hz]
      · rw [if_pos hz]
    · simp only [if_neg hwrap]
      simp

/-- `segment_to_use` only ever returns 0 or 1. -/
theorem stu_mem (s0 s1 : Segment) (w size : ℕ) :
    segment_to_use s0 s1 w size = 0 ∨ segment_to_use s0 s1 w size = 1 := by
  unfold segment_to_use
  exact ite_eq_or_eq _ 0 1

/-- Helper for claim C2: the `writeCopy` characterization lifted over
the continue-or-open-new-segment step of `write`. -/
theorem writeCont_track (src : ℕ → T) (start : ℤ) (cnt : ℕ) (st : State T)
    (segment : ℕ) (s0 s1 : Segment) (n : ℕ) (st2 : State T)
    (hw : st.write_idx < st.size) (hseg : segment = 0 ∨ segment = 1)
    (h : writeCont src start cnt st segment s0 s1 = some (n, st2)) :
    (n = 0 ∧ st2 = st) ∨
    (write_space st ≠ 0 ∧ n = min cnt (write_space st) ∧
      st2.write_idx = (st.write_idx + n) % st.size ∧
      st2.read_idx = st.read_idx ∧ st2.size = st.size ∧
      st2.reservation = st.reservation) := by
  rcases hseg with hsg | hsg <;> subst hsg <;>
    unfold writeCont at h <;>
      simp only [Nat.sub_zero, Nat.sub_self, if_neg Nat.one_ne_zero,
        if_pos (Eq.refl (0 : ℕ)), if_true] at h
  · by_cases hc : start = s0.write_start_pos + s0.write_start_offset
    · rw [if_pos hc] at h
      exact writeCopy_track src cnt st 0 s0 s1 n st2 hw h
    · rw [if_neg hc] at h
      by_cases hoff : s1.write_start_offset ≠ 0
      · rw [if_pos hoff] at h
        cases h
      · rw [if_neg hoff] at h
        exact writeCopy_track src cnt st 1 s0 _ n st2 hw h
  · by_cases hc : start = s1.write_start_pos + s1.write_start_offset
    · rw [if_pos hc] at h
      exact writeCopy_track src cnt st 1 s0 s1 n st2 hw h
    · rw [if_neg hc] at h
      by_cases hoff : s0.write_start_offset ≠ 0
      · rw [if_pos hoff] at h
        cases h
      · rw [if_neg hoff] at h
        exact writeCopy_track src cnt st 0 _ s1 n st2 hw h

/-- Helper for claim C2: the full `write` call either refuses (returning
0 and the unchanged state) or copies `min cnt (write_space st)` samples
and advances the write cursor by that amount modulo `size`. -/
theorem write_track (src : ℕ → T) (start : ℤ) (cnt : ℕ) (st : State T)
    (n : ℕ) (st2 : State T) (hw : st.write_idx < st.size)
    (h : write src start cnt st = some (n, st2)) :
    (n = 0 ∧ st2 = st) ∨
    (write_space st ≠ 0 ∧ n = min cnt (write_space st) ∧
      st2.write_idx = (st.write_idx + n) % st.size ∧
      st2.read_idx = st.read_idx ∧ st2.size = st.size ∧
      st2.reservation = st.reservation) := by
  unfold write at h
  by_cases c1 : st.seg0.write_start_offset = 0 ∧ st.seg1.write_start_offset = 0
  · rw [if_pos c1] at h
    exact writeCont_track src start cnt st 0 _ _ n st2 hw (Or.inl rfl) h
  · rw [if_neg c1] at h
    by_cases c2 : st.seg0.write_start_offset ≠ 0
    · rw [if_pos c2] at h
      exact writeCont_track src start cnt st 0 _ _ n st2 hw (Or.inl rfl) h
    · rw [if_neg c2] at h
      by_cases c3 : st.seg1.write_start_offset ≠ 0
      · rw [if_pos c3] at h
        exact writeCont_track src start cnt st 1 _ _ n st2 hw (Or.inr rfl) h
      · rw [if_neg c3] at h
        by_cases c4 : start ≠
            (if segment_to_use st.seg0 st.seg1 st.write_idx st.size = 0
             then st.seg0 else st.seg1).write_start_pos +
            (if segment_to_use st.seg0 st.seg1 st.write_idx st.size = 0
             then st.seg0 else st.seg1).write_start_offset
        · rw [if_pos c4] at h
          injection h with h2
          injection h2 with h3 h4
          exact Or.inl ⟨h3.symm, h4.symm⟩
        · rw [if_neg c4] at h
          exact writeCont_track src start cnt st _ _ _ n st2 hw
            (stu_mem st.seg0 st.seg1 st.write_idx st.size) h

/-- Helper for claim C2, pure ring arithmetic: if `n` leaves at least
`res + 1` slots of the writer-to-reader gap unused, then after
advancing the write cursor by `n` the reader-to-writer distance stays
at most `s - 1 - res`. -/
theorem dist_bound (w r s res n : ℕ) (hw : w < s) (hr : r < s)
    (hlow : n + res + 1 ≤
      (if r < w then (r + s - w) % s
       else if w < r then r - w else s)) :
    ((w + n) % s + s - r) % s ≤ s - 1 - res := by
  rcases Nat.lt_trichotomy r w with hc | hc | hc
  · rw [if_pos hc] at hlow
    have hm : (r + s - w) % s = r + s - w := Nat.mod_eq_of_lt (by omega)
    rw [hm] at hlow
    by_cases hwn : w + n < s
    · rw [Nat.mod_eq_of_lt hwn]
      have h2 : (w + n + s - r) % s = w + n - r := by
        rw [Nat.mod_eq_sub_mod (by omega), Nat.mod_eq_of_lt (by omega)]
        omega
      rw [h2]
      omega
    · have h1 : (w + n) % s = w + n - s := by
        rw [Nat.mod_eq_sub_mod (by omega)]
        exact Nat.mod_eq_of_lt (by omega)
      rw [h1]
      have h2 : (w + n - s + s - r) % s = w + n - s + s - r :=
        Nat.mod_eq_of_lt (by omega)
      rw [h2]
      omega
  · rw [if_neg (by omega), if_neg (by omega)] at hlow
    subst hc
    by_cases hwn : r + n < s
    · rw [Nat.mod_eq_of_lt hwn]
      have h2 : (r + n + s - r) % s = n % s := by
        have h3 : r + n + s - r = n + s := by omega
        rw [h3, Nat.add_mod_right]
      rw [h2, Nat.mod_eq_of_lt (by omega)]
      omega
    · have h1 : (r + n) % s = r + n - s := by
        rw [Nat.mod_eq_sub_mod (by omega)]
        exact Nat.mod_eq_of_lt (by omega)
      rw [h1]
      have h2 : (r + n - s + s - r) % s = n % s := by
        have h3 : r + n - s + s - r = n := by omega
        rw [h3]
      rw [h2, Nat.mod_eq_of_lt (by omega)]
      omega
  · rw [if_neg (by omega), if_pos hc] at hlow
    have h1 : (w + n) % s = w + n := Nat.mod_eq_of_lt (by omega)
    rw [h1]
    have h2 : (w + n + s - r) % s = w + n + s - r := Nat.mod_eq_of_lt (by omega)
    rw [h2]
    omega

/-- Helper for claim C2: any write of `n ≤ write_space st` samples from
a state with positive space lands the reader-to-writer ring distance at
or below `size - 1 - reservation` — regardless of the distance before. -/
theorem write_preserves_dist (st : State T) (n : ℕ)
    (hw : st.write_idx < st.size) (hr : st.read_idx < st.size)
    (hfree : write_space st ≠ 0) (hn : n ≤ write_space st) :
    ringDistFwd st.read_idx ((st.write_idx + n) % st.size) st.size ≤
      st.size - 1 - st.reservation := by
  have hbridge : ∀ rv : ℕ,
      ((if st.reservation < rv then rv - 1 - st.reservation else 0) ≠ 0) →
      (n ≤ (if st.reservation < rv then rv - 1 - st.reservation else 0)) →
      n + st.reservation + 1 ≤ rv := by
    intro rv hne hle
    by_cases hres : st.reservation < rv
    · rw [if_pos hres] at hle
      omega
    · rw [if_neg hres] at hne
      omega
  unfold write_space at hfree hn
  have hlow := hbridge
    (if st.read_idx < st.write_idx then
      (st.read_idx + st.size - st.write_idx) % st.size
     else if st.write_idx < st.read_idx then st.read_idx - st.write_idx
     else st.size) hfree hn
  unfold ringDistFwd
  exact dist_bound st.write_idx st.read_idx st.size st.reservation n hw hr hlow

/-- Helper for claim C2: a single successful `write` call preserves the
cursor invariant. -/
theorem write_preserves_Inv (st : State T) (src : ℕ → T) (start : ℤ)
    (cnt n : ℕ) (st2 : State T) (hInv : Inv st)
    (h : write src start cnt st = some (n, st2)) : Inv st2 := by
  rcases write_track src start cnt st n st2 hInv.1 h with
    ⟨_, rfl⟩ | ⟨hfree, hn, hwi, hri, hsz, hres⟩
  · exact hInv
  · have hs : 0 < st.size := lt_of_le_of_lt (Nat.zero_le _) hInv.1
    refine ⟨?_, ?_, ?_⟩
    · rw [hwi, hsz]
      exact Nat.mod_lt _ hs
    · rw [hri, hsz]
      exact hInv.2.1
    · rw [hwi, hri, hsz, hres]
      exact write_preserves_dist st n hInv.1 hInv.2.1 hfree
        (by rw [hn]; exact min_le_right _ _)

/-- Helper for claim C2: along any batch of writes from a state
satisfying the invariant, every intermediate and final state keeps the
reader-to-writer ring distance within `size - 1 - reservation`. -/
theorem runWrites_dist (reqs : List (WriteReq T)) :
    ∀ st : State T, Inv st →
      ((runWrites reqs st).all fun st2 =>
        decide (ringDistFwd st2.read_idx st2.write_idx st2.size ≤
          st2.size - 1 - st2.reservation)) = true := by
  induction reqs with
  | nil =>
    intro st hInv
    simpa [runWrites, Option.all] using hInv.2.2
  | cons req rest ih =>
    intro st hInv
    simp only [runWrites]
    cases hv : write req.1 req.2.1 req.2.2 st with
    | none => rfl
    | some p =>
      obtain ⟨m, st2⟩ := p
      exact ih st2 (write_preserves_Inv st req.1 req.2.1 req.2.2 m st2 hInv hv)

/-- Claim C2, amended: the reservation bound is an *invariant*, not a
property of arbitrary reachable states — a committing re-read inside
the reservation window moves the read cursor backwards and can push the
distance above the bound (see `reservation_distance_cx`, matching the
source's commented-out `assert (rv > reservation)`).  What holds is:
from any state whose reader-to-writer ring distance is at most
`size - 1 - reservation` (e.g. a freshly reset buffer), any sequence of
write calls keeps the distance within that bound; and every write call
copies at most `min (requested count) (write_space)` samples, never
more than requested. -/
theorem reservation_distance_amended (T : Type) (reqs : List (WriteReq T))
    (st : State T) (src : ℕ → T) (start : ℤ) (cnt : ℕ) (hInv : Inv st) :
    ((runWrites reqs st).all fun st2 =>
      decide (ringDistFwd st2.read_idx st2.write_idx st2.size ≤
        st2.size - 1 - st2.reservation)) = true ∧
    ((write src start cnt st).all fun p =>
      decide (p.1 ≤ cnt ∧ p.1 ≤ write_space st)) = true := by
  refine ⟨runWrites_dist reqs st hInv, ?_⟩
  cases hv : write src start cnt st with
  | none => rfl
  | some p =>
    obtain ⟨m, st2⟩ := p
    rcases write_track src start cnt st m st2 hInv.1 hv with
      ⟨h0, _⟩ | ⟨_, hm, _⟩
    · subst h0
      simp [Option.all]
    · subst hm
      simp [Option.all, min_le_left, min_le_right]

/-- Claim C2, witness: from the fresh buffer `cbuf` (which satisfies the
invariant), the batch consisting of one 13-sample write at position 0
keeps the distance within `size - 1 - reservation = 13`, and that write
copies at most `min 13 (write_space cbuf)` samples. -/
theorem reservation_distance_amended_witness :
    ((runWrites [(fun i => i, 0, 13)] cbuf).all fun st2 =>
      decide (ringDistFwd st2.read_idx st2.write_idx st2.size ≤
        st2.size - 1 - st2.reservation)) = true ∧
    ((write (fun i => i) 0 13 cbuf).all fun p =>
      decide (p.1 ≤ 13 ∧ p.1 ≤ write_space cbuf)) = true :=
  reservation_distance_amended ℕ [(fun i => i, 0, 13)] cbuf (fun i => i) 0 13
    (by decide)

/-- Helper for claim C1: with equal cursors the lock-free space query
reports `size - 1 - reservation` (the equal-cursor branch yields
`rv = size`). -/
theorem write_space_zero_cursors (st : State T)
    (hw0 : st.write_idx = 0) (hr0 : st.read_idx = 0) :
    write_space st = st.size - 1 - st.reservation := by
  unfold write_space
  rw [hw0, hr0]
  simp only [lt_self_iff_false, if_false]
  split <;> omega

/-- Helper for claim C1: on a buffer with both segments inactive and no
space, `write` opens segment 0 locally but publishes nothing and
returns 0. -/
theorem fresh_write_refuse (st : State T) (data : ℕ → T) (P : ℤ) (N : ℕ)
    (h00 : st.seg0.write_start_offset = 0)
    (h10 : st.seg1.write_start_offset = 0)
    (hfree : write_space st = 0) :
    write data P N st = some (0, st) := by
  simp [write, writeCont, writeCopy, h00, h10, hfree]

/-- Helper for claim C1: a write of `N` samples at position `P` into a
buffer with both segments inactive, write cursor at slot 0, enough
space, and `N < size` copies all `N` samples into slots `0..N`, opens
segment 0 at `(slot 0, position P)` with length `N`, and moves the
write cursor to slot `N`. -/
theorem fresh_write_eq (st : State T) (data : ℕ → T) (P : ℤ) (N : ℕ)
    (hw0 : st.write_idx = 0) (h00 : st.seg0.write_start_offset = 0)
    (h10 : st.seg1.write_start_offset = 0)
    (hfree : write_space st ≠ 0) (hNle : N ≤ write_space st)
    (hNlt : N < st.size) :
    write data P N st = some (N,
      { st with buf := fun k => if k < N then data k else st.buf k,
                seg0 := ⟨0, P, (N : ℤ), st.seg0.write_reversed⟩,
                write_idx := N }) := by
  have hmin : min N (write_space st) = N := min_eq_left hNle
  have hnw : ¬(st.size < N) := Nat.not_lt.mpr (Nat.le_of_lt hNlt)
  have hmod : N % st.size = N := Nat.mod_eq_of_lt hNlt
  simp [write, writeCont, writeCopy, h00, h10, hw0, hfree, hmin, hnw, hmod]

/-- Helper for claim C1: a non-committing read of `[P, P + N)` from a
buffer whose segment 0 holds exactly positions `[P, P + N)` at slots
`0..N` (with `N < size` and segment 1 inactive) returns those `N`
samples in order and changes nothing. -/
theorem fresh_read_eq (st : State T) (data : ℕ → T) (P : ℤ) (N : ℕ)
    (hseg0 : st.seg0 = ⟨0, P, (N : ℤ), st.seg0.write_reversed⟩)
    (h10 : st.seg1.write_start_offset = 0)
    (hbuf : ∀ k, k < N → st.buf k = data k)
    (hNpos : 0 < N) (hNlt : N < st.size) :
    read P N false st = some ((List.range N).map data, N, st) := by
  have hcov0 : covers st.seg0 st.size P N = true := by
    rw [hseg0]
    simp only [covers, decide_eq_true_eq, seg_frs, seg_lrs]
    refine ⟨by exact_mod_cast hNpos, ?_, le_refl _⟩
    have hmin : min (N : ℤ) ((st.size : ℤ)  - 1) = (N : ℤ) := by
      rw [min_eq_left]
      omega
    rw [hmin]
    omega
  have hcov1 : covers st.seg1 st.size P N = false := by
    simp [covers, h10]
  have hp : ((0 : ℤ) + (N : ℤ)) % (st.size : ℤ) = (N : ℤ) := by
    rw [zero_add]
    exact Int.emod_eq_of_lt (by omega) (by exact_mod_cast hNlt)
  have hrp : readPos st.seg0 st.size P = 0 := by
    rw [hseg0]
    simp only [readPos, seg_lrs, Nat.cast_zero]
    rw [hp]
    have hd : P + (N : ℤ) - P = (N : ℤ) := by omega
    rw [hd, if_neg (lt_irrefl _)]
    have he : (st.size : ℤ) + (N : ℤ) - (N : ℤ) = (st.size : ℤ) := by omega
    rw [he, Int.emod_self]
    rfl
  have hnw : ¬(st.size < N) := by omega
  simp only [read, hcov0, hcov1, if_true, if_false]
  norm_num [hrp, hnw]
  exact hbuf

/-- Claim C1 (confirmed): for every buffer constructed with capacity
`c` and reservation `r`, every absolute position `P`, and every sample
sequence of length `N ≤ size - reservation - 1`, starting from a
freshly reset buffer at position `P`, `write(data, P, N)` returns `N`,
and a subsequent `read(dest, P, N, commit = false)` returns `N` and
copies exactly the original `N` samples in order into `dest`. -/
theorem write_read_roundtrip (T : Type) (c r : ℕ) (buf0 : ℕ → T)
    (g0 g1 : Segment) (P : ℤ) (N : ℕ) (data : ℕ → T)
    (hN : (N : ℤ) ≤ (sizeFor (c + r) : ℤ) - r - 1) :
    (write data P N (reset P (construct c r buf0 g0 g1))).map Prod.fst =
      some N ∧
    ((write data P N (reset P (construct c r buf0 g0 g1))).bind fun p =>
        read P N false p.2).map (fun q => (q.1, q.2.1)) =
      some ((List.range N).map data, N) := by
  have hw0 : (reset P (construct c r buf0 g0 g1)).write_idx = 0 := rfl
  have hr0 : (reset P (construct c r buf0 g0 g1)).read_idx = 0 := rfl
  have hsz : (reset P (construct c r buf0 g0 g1)).size = sizeFor (c + r) := rfl
  have hres : (reset P (construct c r buf0 g0 g1)).reservation = r := rfl
  have h00 : (reset P (construct c r buf0 g0 g1)).seg0.write_start_offset = 0 :=
    rfl
  have h10 : (reset P (construct c r buf0 g0 g1)).seg1.write_start_offset = 0 :=
    rfl
  have hSpos : 0 < sizeFor (c + r) := pow_pos (by norm_num) _
  have hws : write_space (reset P (construct c r buf0 g0 g1)) =
      sizeFor (c + r) - 1 - r := by
    rw [write_space_zero_cursors _ hw0 hr0, hsz, hres]
  by_cases hz : write_space (reset P (construct c r buf0 g0 g1)) = 0
  · have hN0 : N = 0 := by
      rw [hws] at hz
      omega
    subst hN0
    rw [fresh_write_refuse _ data P 0 h00 h10 hz]
    refine ⟨rfl, ?_⟩
    have hrd := read_not_exactly_one (reset P (construct c r buf0 g0 g1)) P 0
      false (by simp [covers, h00, h10])
    simp [hrd]
  · have hle : N ≤ write_space (reset P (construct c r buf0 g0 g1)) := by
      rw [hws]
      rw [hws] at hz
      omega
    have hNlt : N < (reset P (construct c r buf0 g0 g1)).size := by
      rw [hsz]
      rw [hws] at hz
      omega
    rw [fresh_write_eq _ data P N hw0 h00 h10 hz hle hNlt]
    refine ⟨rfl, ?_⟩
    by_cases hNp : 0 < N
    · have hrd := fresh_read_eq
        { reset P (construct c r buf0 g0 g1) with
          buf := fun k => if k < N then data k
            else (reset P (construct c r buf0 g0 g1)).buf k,
          seg0 := ⟨0, P, (N : ℤ),
            (reset P (construct c r buf0 g0 g1)).seg0.write_reversed⟩,
          write_idx := N }
        data P N rfl h10 (fun k hk => if_pos hk) hNp hNlt
      simp [hrd]
    · have hN0 : N = 0 := by omega
      subst hN0
      have hrd := read_not_exactly_one
        { reset P (construct c r buf0 g0 g1) with
          buf := fun k => if k < 0 then data k
            else (reset P (construct c r buf0 g0 g1)).buf k,
          seg0 := ⟨0, P, ((0 : ℕ) : ℤ),
            (reset P (construct c r buf0 g0 g1)).seg0.write_reversed⟩,
          write_idx := 0 }
        P 0 false (by simp [covers, h10])
      simp at hrd ⊢
      exact ⟨_, hrd⟩

/-- Claim C1, witness: on the fresh size-16 buffer `cbuf`
(capacity 14, reservation 2) a 13-sample write at position 0 returns 13
and the non-committing read-back returns the same 13 samples. -/
theorem write_read_roundtrip_witness :
    (write (fun i => i) 0 13 cbuf).map Prod.fst = some 13 ∧
    ((write (fun i => i) 0 13 cbuf).bind fun p =>
        read 0 13 false p.2).map (fun q => (q.1, q.2.1)) =
      some ((List.range 13).map (fun i => i), 13) :=
  write_read_roundtrip ℕ 14 2 (fun _ => 0) ⟨0, 0, 0, false⟩ ⟨0, 0, 0, false⟩
    0 13 (fun i => i) (by decide)

end RaRing
